import Mathlib

/-!
Verification of the commit-pilot script (src/commit_pilot/main.py).

The script is modelled shallowly: Python strings are lists of Unicode code
points (`List Char`), the subprocess and prompt interactions are an explicit
environment record, and every string operation of the source is translated
to an executable Lean function on `List Char`.
-/

namespace CommitPilot

/-- A Python string: a sequence of Unicode code points. -/
abbrev Str := List Char

/-- Characters of a Lean string literal, used to transcribe the source's literals. -/
def lit (s : String) : Str := s.data

/-- Python `str.lower()`, on the basic-latin letters the script manipulates. -/
def lowerStr (s : Str) : Str := s.map Char.toLower

/-- Python `str.strip()`: remove leading and trailing whitespace. -/
def stripStr (s : Str) : Str :=
  List.rdropWhile Char.isWhitespace (List.dropWhile Char.isWhitespace s)

/-- Python `s.split('\n')`: split at every newline, keeping empty pieces,
so the empty string yields one empty piece. -/
def splitLines : Str → List Str
  | [] => [[]]
  | c :: rest =>
    if c = '\n' then [] :: splitLines rest
    else
      match splitLines rest with
      | [] => [[c]]
      | l :: ls => (c :: l) :: ls

/-- The header tuple of `line.startswith(...)` at main.py line 32. -/
def headerTags : List Str :=
  [lit "diff --git", lit "index", lit "---", lit "+++", lit "Binary files"]

/-- The conventional-commit tags of main.py line 61. -/
def convTags : List Str :=
  [lit "feat:", lit "fix:", lit "chore:", lit "docs:", lit "style:",
   lit "refactor:", lit "perf:", lit "test:"]

/-- One iteration of the cleaning loop (main.py lines 30-37): skip header
lines, keep a `+`/`-` line with its marker dropped, drop anything else. -/
def cleanLine (line : Str) : Option Str :=
  if headerTags.any (fun h => h.isPrefixOf line) then none
  else if (lit "+").isPrefixOf line || (lit "-").isPrefixOf line then some (line.drop 1)
  else none

/-- The `cleaned_lines` list accumulated by the loop at main.py lines 29-37. -/
def cleanedLines (diff : Str) : List Str := (splitLines diff).filterMap cleanLine

/-- `cleaned_diff = "\n".join(cleaned_lines)` (main.py line 43). -/
def cleaned_diff (diff : Str) : Str := List.intercalate (lit "\n") (cleanedLines diff)

/-- `max_length = 2000` (main.py line 46). -/
def maxLength : Nat := 2000

/-- `truncated_diff = cleaned_diff[:max_length]` (main.py line 47). -/
def truncated_diff (diff : Str) : Str := (cleaned_diff diff).take maxLength

/-- The instruction text of the f-string at main.py line 54. -/
def instrText : Str := lit "summarize the following code changes into a short git commit message: "

/-- The prompt handed to the summarizer (main.py line 54). -/
def promptFor (diff : Str) : Str := instrText ++ truncated_diff diff

/-- The canned message returned when no content line survives (main.py line 41). -/
def defaultMsg : Str := lit "chore: Update file metadata or permissions"

/-- Formatting of the summarizer output (main.py lines 58-65): strip, prepend
`feat: ` unless a conventional tag is already there case-insensitively, then
lower-case everything. -/
def formatMessage (raw : Str) : Str :=
  let m := stripStr raw
  let m1 :=
    if !(convTags.any (fun p => p.isPrefixOf (lowerStr m))) then lit "feat: " ++ m
    else m
  lowerStr m1

/- Printed literals of the script, transcribed from main.py. -/

/-- Printed on a `FileNotFoundError` for the git binary (main.py line 20). -/
def msgGitMissing : Str := lit "commit-pilot: Error: Git is not installed or not in your PATH."

/-- Printed when `git diff --staged` exits non-zero (main.py line 17). -/
def msgFetchError : Str :=
  lit "commit-pilot: Error fetching staged changes. Ensure you have staged files with \x27git add .\x27"

/-- Printed when the staged diff is empty (main.py line 82). -/
def msgNoStaged : Str :=
  lit "commit-pilot: No staged changes found. Please use \x27git add\x27 to stage your files."

/-- Printed before the summarization model runs (main.py line 50). -/
def msgGenerating : Str := lit "commit-pilot: Generating commit message from the following changes."

/-- Banner above the suggested message (main.py line 87). -/
def msgSuggestHeader : Str := lit "\n--- commit-pilot: Suggested Commit Message ---"

/-- Banner below the suggested message (main.py line 89). -/
def msgSuggestFooter : Str := lit "---------------------------------"

/-- Printed when `git commit` succeeds (main.py line 72). -/
def msgCommitOk : Str := lit "\n✅ commit-pilot: Commit successful!"

/-- Printed when `git commit` exits non-zero (main.py line 74). -/
def msgCommitFail : Str := lit "\n❌ commit-pilot: Git commit failed."

/-- Printed when the user declines or submits an empty edit (main.py lines 107, 109). -/
def msgCancelled : Str := lit "commit-pilot: Commit cancelled."

/-- Result of `generate_commit_message`: the returned value, how many times the
summarization model ran, and what was printed. -/
structure GenResult where
  message : Option Str
  summarizerCalls : Nat
  printed : List Str
  deriving Repr, DecidableEq

/-- `generate_commit_message` (main.py lines 23-65), with the summarization
model abstracted as a string function. -/
def generate_commit_message (summarizer : Str → Str) (diff : Str) : GenResult :=
  if diff = [] then ⟨none, 0, []⟩
  else if cleanedLines diff = [] then ⟨some defaultMsg, 0, []⟩
  else
    ⟨some (formatMessage (summarizer (promptFor diff))), 1, [msgGenerating]⟩

/-- Result of the `git diff --staged` subprocess in `get_staged_diff`
(main.py lines 10-21): its stdout on success, a `CalledProcessError`, or a
`FileNotFoundError` when git is absent from PATH. -/
inductive FetchResult where
  | ok (diff : Str)
  | procError
  | gitMissing

/-- The choice made at the `questionary.select` prompt (main.py lines 91-94).
`other` covers picking `No` as well as aborting the prompt, both of which fall
to the final `else` branch of `main`. -/
inductive UserAction where
  | yes
  | edit
  | other

/-- One run's worth of external-world behaviour: what the subprocesses and
prompts return. -/
structure Env where
  fetch : FetchResult
  summarizer : Str → Str
  action : UserAction
  editedText : Str
  commitOk : Bool

/-- Observable outcome of a run: the process exit code, how many times
`git commit` and the summarizer ran, and everything printed, in order. -/
structure Outcome where
  exitCode : Nat
  commitCalls : Nat
  summarizerCalls : Nat
  printed : List Str
  deriving Repr, DecidableEq

/-- `perform_commit` (main.py lines 67-75): run `git commit -m`, print the
result, and exit 1 on a non-zero exit of the command. -/
def perform_commit (ok : Bool) : Outcome :=
  if ok then ⟨0, 1, 0, [msgCommitOk]⟩ else ⟨1, 1, 0, [msgCommitFail]⟩

/-- `main` (main.py lines 77-109). A `FileNotFoundError` or
`CalledProcessError` in the fetch exits 1; an empty diff exits 0; otherwise
the message is generated, shown, and the user's choice decides between
committing, committing an edited text, and cancelling. An empty edited text
is falsy in Python, so it cancels. -/
def main (e : Env) : Outcome :=
  match e.fetch with
  | .gitMissing => ⟨1, 0, 0, [msgGitMissing]⟩
  | .procError => ⟨1, 0, 0, [msgFetchError]⟩
  | .ok d =>
    if d = [] then ⟨0, 0, 0, [msgNoStaged]⟩
    else
      let g := generate_commit_message e.summarizer d
      let ai := g.message.getD []
      let shown := g.printed ++ [msgSuggestHeader, lit "\n" ++ ai ++ lit "\n", msgSuggestFooter]
      match e.action with
      | .yes =>
        let c := perform_commit e.commitOk
        ⟨c.exitCode, c.commitCalls, g.summarizerCalls, shown ++ c.printed⟩
      | .edit =>
        if e.editedText ≠ [] then
          let c := perform_commit e.commitOk
          ⟨c.exitCode, c.commitCalls, g.summarizerCalls, shown ++ c.printed⟩
        else ⟨0, 0, g.summarizerCalls, shown ++ [msgCancelled]⟩
      | .other => ⟨0, 0, g.summarizerCalls, shown ++ [msgCancelled]⟩

/-- The cleaning policy as the specification words it: drop every line that
starts with a header, keep exactly the remaining lines that begin with a
`+` or `-` marker with that leading character removed, in the original order. -/
def cleanedLinesSpec (diff : Str) : List Str :=
  ((splitLines diff).filter
      (fun l => !(headerTags.any (fun h => h.isPrefixOf l)) &&
        ((lit "+").isPrefixOf l || (lit "-").isPrefixOf l))).map (List.drop 1)

/-- A header-only diff, the no-content scenario of the specification. -/
def headerOnlyDiff : Str := lit "diff --git a/x b/x\nindex abc..def\n--- a/x\n+++ b/x"

/-- A one-line diff whose cleaned text is 2100 characters long. -/
def bigDiff : Str := '+' :: 'a' :: List.replicate 2099 'a'

/- ### Character-level helper lemmas -/

theorem char_eq_iff {c d : Char} : c = d ↔ c.toNat = d.toNat :=
  ⟨fun h => h ▸ rfl, fun h => Char.ext (UInt32.toNat.inj h)⟩

theorem toNat_ofNat_valid {n : Nat} (h : n.isValidChar) : (Char.ofNat n).toNat = n := by
  rw [Char.ofNat, dif_pos h]
  rfl

theorem toLower_toLower (c : Char) : c.toLower.toLower = c.toLower := by
  simp only [Char.toLower]
  by_cases h : c.toNat ≥ 65 ∧ c.toNat ≤ 90
  · rw [if_pos h]
    have ht : (Char.ofNat (c.toNat + 32)).toNat = c.toNat + 32 :=
      toNat_ofNat_valid (Or.inl (by omega))
    rw [if_neg (by omega)]
  · rw [if_neg h, if_neg h]

theorem isWhitespace_toLower (c : Char) : c.toLower.isWhitespace = c.isWhitespace := by
  simp only [Char.toLower]
  by_cases h : c.toNat ≥ 65 ∧ c.toNat ≤ 90
  · rw [if_pos h]
    have ht : (Char.ofNat (c.toNat + 32)).toNat = c.toNat + 32 :=
      toNat_ofNat_valid (Or.inl (by omega))
    simp only [Char.isWhitespace, char_eq_iff, ht]
    have e1 : (' ' : Char).toNat = 32 := rfl
    have e2 : ('\t' : Char).toNat = 9 := rfl
    have e3 : ('\r' : Char).toNat = 13 := rfl
    have e4 : ('\n' : Char).toNat = 10 := rfl
    rw [e1, e2, e3, e4]
    rw [decide_eq_false (by omega), decide_eq_false (by omega),
        decide_eq_false (by omega), decide_eq_false (by omega),
        decide_eq_false (by omega), decide_eq_false (by omega),
        decide_eq_false (by omega), decide_eq_false (by omega)]
  · rw [if_neg h]

theorem lowerStr_idem (s : Str) : lowerStr (lowerStr s) = lowerStr s := by
  simp only [lowerStr, List.map_map]
  exact List.map_congr_left fun c _ => toLower_toLower c

/- ### Trimming lemmas -/

theorem dropWhile_rdropWhile_self {p : Char → Bool} (u : Str)
    (h : List.dropWhile p u = u) :
    List.dropWhile p (List.rdropWhile p u) = List.rdropWhile p u := by
  rcases hn : List.rdropWhile p u with _ | ⟨b, y⟩
  · simp
  · have hpre := List.rdropWhile_prefix p u
    rw [hn] at hpre
    obtain ⟨t, ht⟩ := hpre
    have hb : p b = false := by
      by_contra hcon
      have hbt : p b = true := by
        cases hpb : p b
        · exact absurd hpb hcon
        · rfl
      rw [← ht, List.cons_append, List.dropWhile_cons_of_pos hbt] at h
      have hlen := List.Sublist.length_le (List.dropWhile_sublist (l := y ++ t) p)
      rw [h] at hlen
      simp at hlen
    rw [List.dropWhile_cons_of_neg (by simp [hb])]

theorem stripStr_idem (s : Str) : stripStr (stripStr s) = stripStr s := by
  unfold stripStr
  rw [dropWhile_rdropWhile_self _ (List.dropWhile_idempotent _ _),
      List.rdropWhile_idempotent]

theorem stripStr_lowerStr (s : Str) : stripStr (lowerStr s) = lowerStr (stripStr s) := by
  have hw : (Char.isWhitespace ∘ Char.toLower) = Char.isWhitespace :=
    funext isWhitespace_toLower
  unfold stripStr lowerStr
  rw [List.dropWhile_map, hw]
  unfold List.rdropWhile
  rw [← List.map_reverse, List.dropWhile_map, hw, ← List.map_reverse]

/- ### Formatter helper lemmas -/

theorem formatMessage_untagged (raw : Str)
    (h : convTags.any (fun p => p.isPrefixOf (lowerStr (stripStr raw))) = false) :
    formatMessage raw = lowerStr (lit "feat: " ++ stripStr raw) := by
  simp only [formatMessage]
  rw [h]
  rfl

theorem formatMessage_tagged (raw : Str)
    (h : convTags.any (fun p => p.isPrefixOf (lowerStr (stripStr raw))) = true) :
    formatMessage raw = lowerStr (stripStr raw) := by
  simp only [formatMessage]
  rw [h]
  rfl

theorem lowerStr_feat (s : Str) :
    lowerStr (lit "feat: " ++ s) = lit "feat: " ++ lowerStr s := by
  simp only [lowerStr, List.map_append]
  rw [show List.map Char.toLower (lit "feat: ") = lit "feat: " from by decide]

theorem formatMessage_has_tag (raw : Str) :
    convTags.any (fun p => p.isPrefixOf (formatMessage raw)) = true := by
  cases hcond : convTags.any (fun p => p.isPrefixOf (lowerStr (stripStr raw))) with
  | false =>
    rw [formatMessage_untagged raw hcond, lowerStr_feat]
    apply List.any_eq_true.mpr
    refine ⟨lit "feat:", by simp [convTags], ?_⟩
    simp only [ List.isPrefixOf_iff_prefix]
    exact ⟨' ' :: lowerStr (stripStr raw), rfl⟩
  | true =>
    rw [formatMessage_tagged raw hcond]
    exact hcond

theorem formatMessage_lowered (raw : Str) :
    lowerStr (formatMessage raw) = formatMessage raw := by
  simp only [formatMessage]
  exact lowerStr_idem _

/- ### Evaluation lemmas for concrete inputs -/

theorem splitLines_no_nl (l : Str) (h : ∀ c ∈ l, c ≠ '\n') : splitLines l = [l] := by
  induction l with
  | nil => rfl
  | cons c rest ih =>
    have hc : c ≠ '\n' := h c (List.mem_cons_self c rest)
    have hr := ih (fun x hx => h x (List.mem_cons_of_mem c hx))
    simp only [splitLines, if_neg hc, hr]

theorem cleanLine_plus_a (l : Str) : cleanLine ('+' :: 'a' :: l) = some ('a' :: l) := by
  simp [cleanLine, headerTags, lit, List.isPrefixOf]

theorem intercalate_singleton (s : Str) (x : Str) : List.intercalate s [x] = x := by
  simp [List.intercalate]

theorem bigDiff_cleaned_long : 2000 < (cleaned_diff bigDiff).length := by
  have h1 : splitLines bigDiff = [bigDiff] := by
    apply splitLines_no_nl
    intro c hc
    simp only [bigDiff, List.mem_cons, List.mem_replicate] at hc
    rcases hc with h | h | ⟨_, h⟩ <;> subst h <;> decide
  have h2a : cleanedLines bigDiff = ['a' :: List.replicate 2099 'a'] := by
    rw [cleanedLines, h1, show bigDiff = '+' :: 'a' :: List.replicate 2099 'a' from rfl]
    rw [List.filterMap_cons_some (cleanLine_plus_a _), List.filterMap_nil]
  have h2 : cleaned_diff bigDiff = 'a' :: List.replicate 2099 'a' := by
    rw [cleaned_diff, h2a, intercalate_singleton]
  rw [h2, List.length_cons, List.length_replicate]
  omega

/- ### C1: the cleaner -/

theorem filterMap_cleanLine_eq (ls : List Str) :
    ls.filterMap cleanLine =
      (ls.filter
        (fun l => !(headerTags.any (fun h => h.isPrefixOf l)) &&
          ((lit "+").isPrefixOf l || (lit "-").isPrefixOf l))).map (List.drop 1) := by
  induction ls with
  | nil => rfl
  | cons l ls ih =>
    by_cases h1 : headerTags.any (fun h => h.isPrefixOf l) = true
    · simp only [List.filterMap_cons, List.filter_cons, cleanLine, h1, if_pos,
        Bool.not_true, Bool.false_and, if_true]
      simpa [h1] using ih
    · have h1f : headerTags.any (fun h => h.isPrefixOf l) = false := by
        cases hx : headerTags.any (fun h => h.isPrefixOf l)
        · rfl
        · exact absurd hx h1
      by_cases h2 : ((lit "+").isPrefixOf l || (lit "-").isPrefixOf l) = true
      · simp only [List.filterMap_cons, List.filter_cons, cleanLine, h1f, h2]
        simp [ih]
      · have h2f : ((lit "+").isPrefixOf l || (lit "-").isPrefixOf l) = false := by
          cases hx : ((lit "+").isPrefixOf l || (lit "-").isPrefixOf l)
          · rfl
          · exact absurd hx h2
        simp only [List.filterMap_cons, List.filter_cons, cleanLine, h1f, h2f]
        simp [ih]

/-- C1: the cleaner discards header-marked lines, keeps exactly the remaining
lines that begin with `+` or `-` stripped of the marker, and joins the
survivors with newlines in the original line order. -/
theorem c1_cleaner_matches_spec (diff : Str) :
    cleanedLines diff = cleanedLinesSpec diff ∧
    cleaned_diff diff = List.intercalate (lit "\n") (cleanedLinesSpec diff) := by
  have h : cleanedLines diff = cleanedLinesSpec diff :=
    filterMap_cleanLine_eq (splitLines diff)
  exact ⟨h, by rw [cleaned_diff, h]⟩

/- ### C9: headers win over the keep rule -/

/-- C9: a raw line that begins with the `---` or `+++` header is discarded by
the cleaner even though it also begins with `-` or `+`. -/
theorem c9_header_beats_marker (l : Str)
    (h : (lit "---").isPrefixOf l ∨ (lit "+++").isPrefixOf l) :
    cleanLine l = none := by
  unfold cleanLine
  have hmem : headerTags.any (fun h => h.isPrefixOf l) = true := by
    rcases h with h | h
    · exact List.any_eq_true.mpr ⟨lit "---", by simp [headerTags], h⟩
    · exact List.any_eq_true.mpr ⟨lit "+++", by simp [headerTags], h⟩
  rw [if_pos hmem]

theorem c9_header_beats_marker_check :
    ((lit "---").isPrefixOf (lit "---x = 3") ∨ (lit "+++").isPrefixOf (lit "---x = 3")) ∧
    cleanLine (lit "---x = 3") = none :=
  ⟨Or.inl (by decide), c9_header_beats_marker _ (Or.inl (by decide))⟩

/- ### C4 and C5: the formatter -/

/-- C4: when the stripped summarizer output does not start, case-insensitively,
with any conventional tag, the formatter returns the lower-casing of
`feat: ` prepended to the stripped output. -/
theorem c4_formatter_prepends_feat (raw : Str)
    (h : convTags.any (fun p => p.isPrefixOf (lowerStr (stripStr raw))) = false) :
    formatMessage raw = lowerStr (lit "feat: " ++ stripStr raw) := by
  simp only [formatMessage]
  rw [h]
  rfl

theorem c4_formatter_prepends_feat_check :
    convTags.any (fun p => p.isPrefixOf (lowerStr (stripStr (lit "  Add login page  ")))) = false ∧
    formatMessage (lit "  Add login page  ") =
      lowerStr (lit "feat: " ++ stripStr (lit "  Add login page  ")) :=
  ⟨by decide, c4_formatter_prepends_feat _ (by decide)⟩

/-- C5: when the stripped summarizer output already starts, case-insensitively,
with a conventional tag, the formatter only lower-cases it, and running the
formatter again on its own output changes nothing. -/
theorem c5_formatter_idempotent_on_tagged (raw : Str)
    (h : convTags.any (fun p => p.isPrefixOf (lowerStr (stripStr raw))) = true) :
    formatMessage raw = lowerStr (stripStr raw) ∧
    formatMessage (formatMessage raw) = formatMessage raw := by
  have h1 : formatMessage raw = lowerStr (stripStr raw) := by
    simp only [formatMessage]
    rw [h]
    rfl
  refine ⟨h1, ?_⟩
  rw [h1]
  have hs : stripStr (lowerStr (stripStr raw)) = lowerStr (stripStr raw) := by
    rw [stripStr_lowerStr, stripStr_idem]
  simp only [formatMessage]
  rw [hs, lowerStr_idem, h]
  simp [lowerStr_idem]

theorem c5_formatter_idempotent_on_tagged_check :
    convTags.any
      (fun p => p.isPrefixOf (lowerStr (stripStr (lit "Fix: crash on empty input")))) = true ∧
    formatMessage (lit "Fix: crash on empty input") =
      lowerStr (stripStr (lit "Fix: crash on empty input")) ∧
    formatMessage (formatMessage (lit "Fix: crash on empty input")) =
      formatMessage (lit "Fix: crash on empty input") := by
  have h := c5_formatter_idempotent_on_tagged (lit "Fix: crash on empty input") (by decide)
  exact ⟨by decide, h.1, h.2⟩

/- ### C2: the no-content short circuit -/

/-- C2: a non-empty diff in which no content line survives yields exactly the
canned default message; the summarizer never runs and the formatter is
bypassed, so the capital U survives un-lowered. -/
theorem c2_default_short_circuit (s : Str → Str) (diff : Str)
    (hne : diff ≠ []) (hclean : cleanedLines diff = []) :
    generate_commit_message s diff = ⟨some defaultMsg, 0, []⟩ ∧
    defaultMsg = lit "chore: Update file metadata or permissions" ∧
    'U' ∈ defaultMsg ∧ lowerStr defaultMsg ≠ defaultMsg := by
  refine ⟨?_, rfl, by decide, by decide⟩
  simp only [generate_commit_message]
  rw [if_neg hne, if_pos hclean]

theorem c2_default_short_circuit_check :
    headerOnlyDiff ≠ [] ∧ cleanedLines headerOnlyDiff = [] ∧
    generate_commit_message (fun _ => []) headerOnlyDiff = ⟨some defaultMsg, 0, []⟩ :=
  ⟨by decide, by decide,
    (c2_default_short_circuit (fun _ => []) headerOnlyDiff (by decide) (by decide)).1⟩

/- ### C3: truncation to 2000 characters -/

/-- C3: when the cleaned diff is longer than 2000 characters, the prompt is
the fixed instruction text followed by exactly the first 2000 characters of
the cleaned diff and nothing beyond them. -/
theorem c3_truncation_to_2000 (diff : Str)
    (h : 2000 < (cleaned_diff diff).length) :
    ∃ t : Str, promptFor diff = instrText ++ t ∧
      (∃ r, t ++ r = cleaned_diff diff) ∧ t.length = 2000 := by
  refine ⟨(cleaned_diff diff).take 2000, rfl,
    ⟨(cleaned_diff diff).drop 2000, List.take_append_drop 2000 (cleaned_diff diff)⟩, ?_⟩
  rw [List.length_take]
  omega

theorem c3_truncation_to_2000_check :
    2000 < (cleaned_diff bigDiff).length ∧
    ∃ t : Str, promptFor bigDiff = instrText ++ t ∧
      (∃ r, t ++ r = cleaned_diff bigDiff) ∧ t.length = 2000 :=
  ⟨bigDiff_cleaned_long, c3_truncation_to_2000 bigDiff bigDiff_cleaned_long⟩

/- ### C10: message invariant -/

/-- C10: for every non-empty diff the generated message starts with one of the
eight conventional tags, and in every case except the bypassed default message
it is entirely lower-case. -/
theorem c10_message_invariant (s : Str → Str) (diff : Str) (hne : diff ≠ []) :
    ∃ m, (generate_commit_message s diff).message = some m ∧
      convTags.any (fun p => p.isPrefixOf m) = true ∧
      (cleanedLines diff ≠ [] → lowerStr m = m) := by
  by_cases hc : cleanedLines diff = []
  · refine ⟨defaultMsg, ?_, by decide, fun hx => absurd hc hx⟩
    simp only [generate_commit_message]
    rw [if_neg hne, if_pos hc]
  · refine ⟨formatMessage (s (promptFor diff)), ?_, formatMessage_has_tag _,
      fun _ => formatMessage_lowered _⟩
    simp only [generate_commit_message]
    rw [if_neg hne, if_neg hc]

theorem c10_message_invariant_check :
    lit "+x = 1" ≠ ([] : Str) ∧
    ∃ m, (generate_commit_message (fun _ => lit "Add x") (lit "+x = 1")).message = some m ∧
      convTags.any (fun p => p.isPrefixOf m) = true ∧
      (cleanedLines (lit "+x = 1") ≠ [] → lowerStr m = m) :=
  ⟨by decide, c10_message_invariant (fun _ => lit "Add x") (lit "+x = 1") (by decide)⟩

/- ### C6: empty staged diff -/

/-- C6: an empty fetched diff prints the informational notice and exits 0,
with neither the summarizer nor `git commit` invoked. -/
theorem c6_empty_diff_exits_zero (s : Str → Str) (a : UserAction) (t : Str) (b : Bool) :
    main ⟨.ok [], s, a, t, b⟩ = ⟨0, 0, 0, [msgNoStaged]⟩ := rfl

/- ### C7: cancellation paths -/

/-- C7: declining at the confirmation prompt, or submitting an empty edited
message, prints the cancellation notice, never invokes `git commit`, and
exits 0. -/
theorem c7_cancellation_no_commit (e : Env) (d : Str) (hd : e.fetch = .ok d) (hne : d ≠ [])
    (h : e.action = .other ∨ (e.action = .edit ∧ e.editedText = [])) :
    (main e).exitCode = 0 ∧ (main e).commitCalls = 0 ∧ msgCancelled ∈ (main e).printed := by
  obtain ⟨f, s, a, t, b⟩ := e
  have hf : f = .ok d := hd
  subst hf
  rcases h with h | ⟨h, ht⟩
  · have ha : a = .other := h
    subst ha
    simp [main, hne]
  · have ha : a = .edit := h
    have ht' : t = [] := ht
    subst ha
    subst ht'
    simp [main, hne]

theorem c7_cancellation_no_commit_check :
    (Env.fetch ⟨.ok (lit "+x = 1"), fun _ => [], .other, [], true⟩ = .ok (lit "+x = 1")) ∧
    lit "+x = 1" ≠ ([] : Str) ∧
    ((main ⟨.ok (lit "+x = 1"), fun _ => [], .other, [], true⟩).exitCode = 0 ∧
     (main ⟨.ok (lit "+x = 1"), fun _ => [], .other, [], true⟩).commitCalls = 0 ∧
     msgCancelled ∈ (main ⟨.ok (lit "+x = 1"), fun _ => [], .other, [], true⟩).printed) :=
  ⟨rfl, by decide,
    c7_cancellation_no_commit ⟨.ok (lit "+x = 1"), fun _ => [], .other, [], true⟩
      (lit "+x = 1") rfl (by decide) (Or.inl rfl)⟩

/- ### C8: fatal failures exit 1, without retry -/

/-- C8: a missing git binary or a failing diff command exits 1 after printing
its message with no commit attempted; a failing commit command exits 1 after
one single commit attempt; and no run ever invokes `git commit` twice. -/
theorem c8_fatal_failures (e₁ e₂ e₃ : Env) (d : Str)
    (h1 : e₁.fetch = .gitMissing) (h2 : e₂.fetch = .procError)
    (h3 : e₃.fetch = .ok d) (hd : d ≠ []) (hy : e₃.action = .yes)
    (hc : e₃.commitOk = false) :
    main e₁ = ⟨1, 0, 0, [msgGitMissing]⟩ ∧
    main e₂ = ⟨1, 0, 0, [msgFetchError]⟩ ∧
    ((main e₃).exitCode = 1 ∧ (main e₃).commitCalls = 1 ∧
      msgCommitFail ∈ (main e₃).printed) ∧
    (∀ e : Env, (main e).commitCalls ≤ 1) := by
  refine ⟨?_, ?_, ?_, ?_⟩
  · obtain ⟨f, s, a, t, b⟩ := e₁
    have hf : f = .gitMissing := h1
    subst hf
    rfl
  · obtain ⟨f, s, a, t, b⟩ := e₂
    have hf : f = .procError := h2
    subst hf
    rfl
  · obtain ⟨f, s, a, t, b⟩ := e₃
    have hf : f = .ok d := h3
    have ha : a = .yes := hy
    have hb : b = false := hc
    subst hf
    subst ha
    subst hb
    simp [main, hd, perform_commit]
  · intro e
    obtain ⟨f, s, a, t, b⟩ := e
    cases f with
    | gitMissing => simp [main]
    | procError => simp [main]
    | ok d =>
      by_cases hde : d = []
      · subst hde
        simp [main]
      · cases a with
        | yes => cases b <;> simp [main, hde, perform_commit]
        | edit =>
          by_cases hte : t = [] <;> cases b <;>
            simp [main, hde, hte, perform_commit]
        | other => simp [main, hde]

theorem c8_fatal_failures_check :
    (Env.fetch ⟨.gitMissing, fun _ => [], .other, [], true⟩ = .gitMissing) ∧
    (Env.fetch ⟨.procError, fun _ => [], .other, [], true⟩ = .procError) ∧
    (Env.fetch ⟨.ok (lit "+x = 1"), fun _ => [], .yes, [], false⟩ = .ok (lit "+x = 1")) ∧
    lit "+x = 1" ≠ ([] : Str) ∧
    (Env.action ⟨.ok (lit "+x = 1"), fun _ => [], .yes, [], false⟩ = .yes) ∧
    (Env.commitOk ⟨.ok (lit "+x = 1"), fun _ => [], .yes, [], false⟩ = false) ∧
    main ⟨.gitMissing, fun _ => [], .other, [], true⟩ = ⟨1, 0, 0, [msgGitMissing]⟩ ∧
    main ⟨.procError, fun _ => [], .other, [], true⟩ = ⟨1, 0, 0, [msgFetchError]⟩ := by
  have h := c8_fatal_failures ⟨.gitMissing, fun _ => [], .other, [], true⟩
    ⟨.procError, fun _ => [], .other, [], true⟩
    ⟨.ok (lit "+x = 1"), fun _ => [], .yes, [], false⟩ (lit "+x = 1")
    rfl rfl rfl (by decide) rfl rfl
  exact ⟨rfl, rfl, rfl, by decide, rfl, rfl, h.1, h.2.1⟩

end CommitPilot
